import Mathlib

/-! Package lambdalog.

A verification development for `lambdalog.go`: a logger for AWS Lambda functions that
wraps a `zap` production logger and binds six context fields to it.

The Go file is forty lines of glue over two external packages,
`github.com/aws/aws-lambda-go/lambdacontext` and `go.uber.org/zap`.  The packages are
modelled first (the parts of them that `lambdalog.go` reaches), then `lambdalog.go`
itself is embedded function by function over an explicit `World`.
-/

namespace lambdalog

/-! ## Go values -/

/-- A Go `error` value, identified by its message. -/
structure GoError where
  msg : String
deriving DecidableEq

/-- Truncation of an integer to Go's `int64`. -/
def int64 (i : Int) : Int := (i + 2 ^ 63) % 2 ^ 64 - 2 ^ 63

/-- Truncation of a natural number to Go's `uint64`. -/
def uint64 (n : Nat) : Nat := n % 2 ^ 64

/-- Decimal rendering of a Go integer, as `%v` prints it. -/
def formatInt (i : Int) : String :=
  if i < 0 then "-" ++ Nat.repr i.natAbs else Nat.repr i.toNat

/-! ## package lambdacontext -/

/-- Modelled from the spec: `lambdacontext.CognitoIdentity` of the external package
aws-lambda-go, absent from src/. -/
structure lambdacontext.CognitoIdentity where
  CognitoIdentityID : String
  CognitoIdentityPoolID : String
deriving DecidableEq

/-- Modelled from the spec: `lambdacontext.LambdaContext` of the external package
aws-lambda-go, absent from src/: the per-invocation execution context.  The client
context is kept as a list of key/value pairs. -/
structure lambdacontext.LambdaContext where
  AwsRequestID : String
  InvokedFunctionArn : String
  Identity : lambdacontext.CognitoIdentity
  ClientContext : List (String × String)
deriving DecidableEq

/-- Modelled from the spec: the package-level variables of `lambdacontext`, absent
from src/: the process-wide function name, version, log group and log stream. -/
structure lambdacontext.Globals where
  LogGroupName : String
  LogStreamName : String
  FunctionName : String
  MemoryLimitInMB : Int
  FunctionVersion : String
deriving DecidableEq

/-! ## package zapcore -/

/-- Modelled from the spec: `zapcore.Level` of the external package zap, absent from
src/: the seven severities, `DebugLevel = -1` up to `FatalLevel = 5`. -/
inductive zapcore.Level
  | DebugLevel
  | InfoLevel
  | WarnLevel
  | ErrorLevel
  | DPanicLevel
  | PanicLevel
  | FatalLevel
deriving DecidableEq

/-- The integer behind a `zapcore.Level`. -/
def zapcore.Level.toInt : zapcore.Level → Int
  | .DebugLevel => -1
  | .InfoLevel => 0
  | .WarnLevel => 1
  | .ErrorLevel => 2
  | .DPanicLevel => 3
  | .PanicLevel => 4
  | .FatalLevel => 5

/-- Modelled from the spec: `Level.Enabled` of zap, absent from src/:
`func (l Level) Enabled(lvl Level) bool { return lvl >= l }`. -/
def zapcore.Level.Enabled (l lvl : zapcore.Level) : Bool :=
  decide (l.toInt ≤ lvl.toInt)

/-- The payload of a `zapcore.Field`: zap keeps a type tag and one of a string, an
integer or an interface; a value that zap would store by reflection is kept as its
rendering, the pairs of a rejected `With` call as position and renderings. -/
inductive zapcore.FieldValue
  | string (s : String)
  | int64 (i : Int)
  | bool (b : Bool)
  | reflect (repr : String)
  | invalidPairs (ps : List (Nat × String × String))
deriving DecidableEq

/-- Modelled from the spec: `zapcore.Field` of zap, absent from src/: a typed
key/value pair. -/
structure zapcore.Field where
  Key : String
  Value : zapcore.FieldValue
deriving DecidableEq

/-- Modelled from the spec: `zapcore.Entry` of zap, absent from src/.  `Caller` holds
the number of frames the logger was configured to skip when it annotates the caller
(`none` when the logger does not annotate). -/
structure zapcore.Entry where
  Level : zapcore.Level
  Time : Int
  LoggerName : String
  Message : String
  Caller : Option Int
deriving DecidableEq

/-- What a core hands to its output: an entry and all the fields encoded with it, the
fields bound with `With` first, the fields of the call after them. -/
structure zapcore.Record where
  entry : zapcore.Entry
  fields : List zapcore.Field
deriving DecidableEq

/-- Modelled from the spec: the `counter` of zap's sampler, absent from src/. -/
structure zapcore.Counter where
  resetAt : Int
  counter : Nat
deriving DecidableEq

/-- Modelled from the spec: `counter.IncCheckReset` of zap's sampler, absent from
src/: inside the current tick the counter is incremented, otherwise it restarts at
one and the tick is moved. -/
def zapcore.Counter.IncCheckReset (c : zapcore.Counter) (tn tick : Int) :
    Nat × zapcore.Counter :=
  if c.resetAt > tn then
    (uint64 (c.counter + 1), { c with counter := uint64 (c.counter + 1) })
  else
    (1, { resetAt := int64 (tn + tick), counter := 1 })

/-- The state behind one sink built by `zap.NewProduction`: the counters of its
sampler (per level and message bucket), the records handed to its output, the write
errors reported on its error output and the number of flushes of its output. -/
structure zapcore.SinkState where
  counts : zapcore.Level → Nat → zapcore.Counter
  written : List zapcore.Record
  errorOutput : List GoError
  syncs : Nat

/-- A sink nobody has used yet. -/
def zapcore.SinkState.fresh : zapcore.SinkState :=
  { counts := fun _ _ => { resetAt := 0, counter := 0 }
    written := []
    errorOutput := []
    syncs := 0 }

/-- The configuration of zap's sampler. -/
structure zapcore.SamplerCfg where
  tick : Int
  first : Nat
  thereafter : Nat
deriving DecidableEq

/-- Modelled from the spec: `zapcore.Core` of zap, absent from src/, as
`Config.Build` assembles it: an `ioCore` (level, encoder with the bound fields,
output), optionally wrapped in a sampler.  `sink` names the output and the counters,
which every core derived with `With` shares. -/
structure zapcore.Core where
  sink : Nat
  level : zapcore.Level
  sampler : Option zapcore.SamplerCfg
  context : List zapcore.Field
deriving DecidableEq

/-! ## The world -/

/-- Everything outside the Go values that the program reads or changes: the
package-level variables of `lambdacontext`, the clock, the sinks opened so far, and
what the environment will answer: the error with which building a production logger
fails (if it does), and the results of the coming calls of `Write` and `Sync` on a
sink output, the next one first (once the list is used up they succeed). -/
structure World where
  globals : lambdacontext.Globals
  now : Int
  buildErr : Option GoError
  ioResults : List (Option GoError)
  nextSink : Nat
  sinks : Nat → zapcore.SinkState

/-- The result of the next call on a sink output. -/
def World.nextResult (w : World) : Option GoError × World :=
  match w.ioResults with
  | [] => (none, w)
  | r :: rest => (r, { w with ioResults := rest })

/-- Replace the state of one sink. -/
def World.setSink (w : World) (id : Nat) (s : zapcore.SinkState) : World :=
  { w with sinks := fun j => if j = id then s else w.sinks j }

/-! ## package fmt -/

/-- A Go value of type `interface{}` as a logging call receives it.  Strings,
integers and booleans are kept as they are; a `zap.Field` and any other value carry
the text `%v` prints for them. -/
inductive Value
  | str (s : String)
  | int (i : Int)
  | bool (b : Bool)
  | field (f : zapcore.Field) (repr : String)
  | other (repr : String)
deriving DecidableEq

/-- The text `%v` prints for a value. -/
def Value.render : Value → String
  | .str s => s
  | .int i => formatInt i
  | .bool b => if b then "true" else "false"
  | .field _ r => r
  | .other r => r

/-- Whether the value is of kind string. -/
def Value.isString : Value → Bool
  | .str _ => true
  | _ => false

/-- The loop of `fmt`'s `doPrint`: a space goes between two operands when neither is
a string. -/
def fmt.doPrint : Bool → Bool → List Value → String
  | _, _, [] => ""
  | first, prevString, a :: rest =>
    (if !first && !a.isString && !prevString then " " else "") ++ a.render ++
      fmt.doPrint false a.isString rest

/-- Modelled from the spec: `fmt.Sprint` of the Go standard library, absent from
src/: the operands in their default format, a space between two operands when
neither is a string. -/
def fmt.Sprint (a : List Value) : String := fmt.doPrint true false a

/-! ## package zapcore: the core -/

/-- One step of the FNV-1a hash on 32 bits. -/
def zapcore.fnvStep (hash : Nat) (b : UInt8) : Nat :=
  ((hash ^^^ b.toNat) * 16777619) % 2 ^ 32

/-- Modelled from the spec: `fnv32a` of zap's sampler, absent from src/: the FNV-1a
hash of the bytes of the message. -/
def zapcore.fnv32a (s : String) : Nat :=
  (s.data.flatMap String.utf8EncodeChar).foldl zapcore.fnvStep 2166136261

/-- The number of counters the sampler keeps for each level. -/
def zapcore.countersPerLevel : Nat := 4096

/-- Modelled from the spec: `Core.Enabled` of zap, absent from src/. -/
def zapcore.Core.Enabled (c : zapcore.Core) (lvl : zapcore.Level) : Bool :=
  c.level.Enabled lvl

/-- Modelled from the spec: `Core.With` of zap, absent from src/: the fields are
added to the encoder of a copy of the core; output and counters stay shared. -/
def zapcore.Core.With (c : zapcore.Core) (fields : List zapcore.Field) : zapcore.Core :=
  { c with context := c.context ++ fields }

/-- Modelled from the spec: `Core.Check` of zap, absent from src/: whether the core
will write the entry.  A disabled level is refused; a sampler counts the entry under
its level and message and lets through the first `first` entries of a tick and every
`thereafter`-th one after them. -/
def zapcore.Core.Check (c : zapcore.Core) (ent : zapcore.Entry) (w : World) : Bool × World :=
  if !c.Enabled ent.Level then (false, w)
  else
    match c.sampler with
    | none => (true, w)
    | some s =>
      let st := w.sinks c.sink
      let j := zapcore.fnv32a ent.Message % zapcore.countersPerLevel
      let r := (st.counts ent.Level j).IncCheckReset ent.Time s.tick
      let w1 := w.setSink c.sink
        { st with counts := fun l k => if l = ent.Level ∧ k = j then r.2 else st.counts l k }
      if r.1 > s.first ∧ (s.thereafter = 0 ∨ (r.1 - s.first) % s.thereafter ≠ 0) then
        (false, w1)
      else (true, w1)

/-- Modelled from the spec: `Core.Sync` of zap, absent from src/: flushes the output
and returns what the output reports. -/
def zapcore.Core.Sync (c : zapcore.Core) (w : World) : Option GoError × World :=
  let r := w.nextResult
  let st := r.2.sinks c.sink
  (r.1, r.2.setSink c.sink { st with syncs := st.syncs + 1 })

/-- Modelled from the spec: `Core.Write` of zap, absent from src/: the entry is
encoded with the bound fields and the fields of the call and handed to the output; a
failure of the output is returned, and after an entry above `ErrorLevel` the output
is flushed. -/
def zapcore.Core.Write (c : zapcore.Core) (ent : zapcore.Entry) (fields : List zapcore.Field)
    (w : World) : Option GoError × World :=
  let r := w.nextResult
  let st := r.2.sinks c.sink
  let w1 := r.2.setSink c.sink
    { st with written := st.written ++ [{ entry := ent, fields := c.context ++ fields }] }
  match r.1 with
  | some err => (some err, w1)
  | none =>
    if ent.Level.toInt > zapcore.Level.ErrorLevel.toInt then (none, (c.Sync w1).2)
    else (none, w1)

/-! ## package zap -/

/-- Modelled from the spec: `zap.Logger` of the external package zap, absent from
src/: the typed logger.  (Its stack-trace setting and its error output, which is the
process's standard error, are not fields of the model.) -/
structure zap.Logger where
  core : zapcore.Core
  development : Bool
  addCaller : Bool
  name : String
  callerSkip : Int
deriving DecidableEq

/-- Modelled from the spec: `zap.SugaredLogger` of zap, absent from src/: the
loosely-typed logger, a wrapper of a typed one. -/
structure zap.SugaredLogger where
  base : zap.Logger
deriving DecidableEq

/-- Modelled from the spec: `zap.Option` of zap, absent from src/: the options that
change a field of the model. -/
inductive zap.LoggerOption
  | AddCallerSkip (skip : Int)
  | AddCaller
  | Development
deriving DecidableEq

/-- Apply one option to a logger: `AddCallerSkip` adds to the number of skipped
frames. -/
def zap.LoggerOption.apply (o : zap.LoggerOption) (log : zap.Logger) : zap.Logger :=
  match o with
  | .AddCallerSkip skip => { log with callerSkip := int64 (log.callerSkip + skip) }
  | .AddCaller => { log with addCaller := true }
  | .Development => { log with development := true }

/-- Modelled from the spec: `Logger.WithOptions` of zap, absent from src/: a copy of
the logger with the options applied in order. -/
def zap.Logger.WithOptions (log : zap.Logger) (opts : List zap.LoggerOption) : zap.Logger :=
  opts.foldl (fun l o => o.apply l) log

/-- Modelled from the spec: `zap.String` of zap, absent from src/: a field with a
string value.  (Named with a dash because `zap.String` would hide the type of
strings.) -/
def zap.String' (key : String) (val : String) : zapcore.Field :=
  { Key := key, Value := .string val }

/-- Modelled from the spec: `zap.Any` of zap, absent from src/: the field type is
chosen from the Go type of the value. -/
def zap.Any (key : String) : Value → zapcore.Field
  | .str s => zap.String' key s
  | .int i => { Key := key, Value := .int64 i }
  | .bool b => { Key := key, Value := .bool b }
  | .field _ r => { Key := key, Value := .reflect r }
  | .other r => { Key := key, Value := .reflect r }

/-- Modelled from the spec: `Logger.With` of zap, absent from src/: a copy of the
logger whose core has the fields bound; with no field the logger itself. -/
def zap.Logger.With (log : zap.Logger) (fields : List zapcore.Field) : zap.Logger :=
  if fields.isEmpty then log else { log with core := log.core.With fields }

/-- Modelled from the spec: `Logger.Check` followed by `CheckedEntry.Write` of zap,
absent from src/, which is the body of every leveled method of the typed logger: the
entry is stamped with the clock, offered to the core, annotated with the caller when
the logger adds callers, and written; a write error goes to the error output.  (The
panic or exit that follows an entry at `PanicLevel`, `FatalLevel`, or at `DPanicLevel`
in development, is not part of the model.) -/
def zap.Logger.log (log : zap.Logger) (lvl : zapcore.Level) (msg : String)
    (fields : List zapcore.Field) (w : World) : World :=
  let ent : zapcore.Entry :=
    { Level := lvl, Time := w.now, LoggerName := log.name, Message := msg, Caller := none }
  let r := log.core.Check ent w
  if !r.1 then r.2
  else
    let ent1 := if log.addCaller then { ent with Caller := some log.callerSkip } else ent
    let r1 := log.core.Write ent1 fields r.2
    match r1.1 with
    | none => r1.2
    | some err =>
      let st := r1.2.sinks log.core.sink
      r1.2.setSink log.core.sink { st with errorOutput := st.errorOutput ++ [err] }

/-- Modelled from the spec: `Logger.DPanic` of zap, absent from src/. -/
def zap.Logger.DPanic (log : zap.Logger) (msg : String) (fields : List zapcore.Field)
    (w : World) : World :=
  log.log .DPanicLevel msg fields w

/-- Modelled from the spec: `Logger.Sync` of zap, absent from src/: flushes the
core. -/
def zap.Logger.Sync (log : zap.Logger) (w : World) : Option GoError × World :=
  log.core.Sync w

/-- Modelled from the spec: `Logger.Sugar` of zap, absent from src/: wraps a copy of
the logger that skips the two frames of the sugared methods. -/
def zap.Logger.Sugar (log : zap.Logger) : zap.SugaredLogger :=
  { base := { log with callerSkip := int64 (log.callerSkip + 2) } }

/-- Modelled from the spec: `SugaredLogger.Desugar` of zap, absent from src/. -/
def zap.SugaredLogger.Desugar (s : zap.SugaredLogger) : zap.Logger :=
  { s.base with callerSkip := int64 (s.base.callerSkip - 2) }

/-- What `sweetenFields` finds in loose arguments: the fields, the pairs whose key is
not a string (with their position), and a last key without a value. -/
structure zap.Sweetened where
  fields : List zapcore.Field
  invalid : List (Nat × String × String)
  dangling : Option Value

/-- The loop of `sweetenFields`, from position `i` on: a `Field` is taken as it is,
a last argument without a partner is dropped, any other two arguments are a key and
a value, bound with `zap.Any` when the key is a string. -/
def zap.sweetenLoop : Nat → List Value → zap.Sweetened
  | _, [] => { fields := [], invalid := [], dangling := none }
  | i, .field f _ :: rest =>
    let r := zap.sweetenLoop (i + 1) rest
    { r with fields := f :: r.fields }
  | _, [a] => { fields := [], invalid := [], dangling := some a }
  | i, .str key :: val :: rest =>
    let r := zap.sweetenLoop (i + 2) rest
    { r with fields := zap.Any key val :: r.fields }
  | i, key :: val :: rest =>
    let r := zap.sweetenLoop (i + 2) rest
    { r with invalid := (i, key.render, val.render) :: r.invalid }

/-- Modelled from the spec: `SugaredLogger.sweetenFields` of zap, absent from src/:
the loose arguments become fields; a dangling key and pairs with a key that is not a
string are reported through the base logger at `DPanicLevel`. -/
def zap.SugaredLogger.sweetenFields (s : zap.SugaredLogger) (args : List Value) (w : World) :
    List zapcore.Field × World :=
  let r := zap.sweetenLoop 0 args
  let w1 := match r.dangling with
    | some a => s.base.DPanic "Ignored key without a value." [zap.Any "ignored" a] w
    | none => w
  let w2 := if r.invalid.isEmpty then w1
    else s.base.DPanic "Ignored key-value pairs with non-string keys."
      [{ Key := "invalid", Value := .invalidPairs r.invalid }] w1
  (r.fields, w2)

/-- Modelled from the spec: `SugaredLogger.With` of zap, absent from src/: the loose
arguments are turned into fields and bound to the base logger. -/
def zap.SugaredLogger.With (s : zap.SugaredLogger) (args : List Value) (w : World) :
    zap.SugaredLogger × World :=
  let r := s.sweetenFields args w
  ({ base := s.base.With r.1 }, r.2)

/-- Modelled from the spec: `SugaredLogger.log` of zap, absent from src/, for the
methods without a template: nothing happens when the level is below `DPanicLevel` and
disabled; otherwise the message is `fmt.Sprint` of the arguments and the entry goes
through the base logger with the fields of the context. -/
def zap.SugaredLogger.log (s : zap.SugaredLogger) (lvl : zapcore.Level) (fmtArgs : List Value)
    (context : List Value) (w : World) : World :=
  if lvl.toInt < zapcore.Level.DPanicLevel.toInt ∧ !s.base.core.Enabled lvl then w
  else
    let msg := if fmtArgs.isEmpty then "" else fmt.Sprint fmtArgs
    let ent : zapcore.Entry :=
      { Level := lvl, Time := w.now, LoggerName := s.base.name, Message := msg, Caller := none }
    let r := s.base.core.Check ent w
    if !r.1 then r.2
    else
      let f := s.sweetenFields context r.2
      let ent1 := if s.base.addCaller then { ent with Caller := some s.base.callerSkip } else ent
      let r1 := s.base.core.Write ent1 f.1 f.2
      match r1.1 with
      | none => r1.2
      | some err =>
        let st := r1.2.sinks s.base.core.sink
        r1.2.setSink s.base.core.sink { st with errorOutput := st.errorOutput ++ [err] }

/-- Modelled from the spec: `SugaredLogger.Debug` of zap, absent from src/. -/
def zap.SugaredLogger.Debug (s : zap.SugaredLogger) (args : List Value) (w : World) : World :=
  s.log .DebugLevel args [] w

/-- Modelled from the spec: `SugaredLogger.Info` of zap, absent from src/. -/
def zap.SugaredLogger.Info (s : zap.SugaredLogger) (args : List Value) (w : World) : World :=
  s.log .InfoLevel args [] w

/-- Modelled from the spec: `SugaredLogger.Warn` of zap, absent from src/. -/
def zap.SugaredLogger.Warn (s : zap.SugaredLogger) (args : List Value) (w : World) : World :=
  s.log .WarnLevel args [] w

/-- Modelled from the spec: `SugaredLogger.Error` of zap, absent from src/. -/
def zap.SugaredLogger.Error (s : zap.SugaredLogger) (args : List Value) (w : World) : World :=
  s.log .ErrorLevel args [] w

/-- Modelled from the spec: `SugaredLogger.Sync` of zap, absent from src/: flushes
the base logger. -/
def zap.SugaredLogger.Sync (s : zap.SugaredLogger) (w : World) : Option GoError × World :=
  s.base.Sync w

/-- Modelled from the spec: `zap.NewProduction` of zap, absent from src/: builds the
production configuration, or fails with the error of the build.  The logger it
returns writes JSON to a new sink at `InfoLevel` and above, samples (the first 100
entries of a second for a level and message, then every 100th), annotates the caller,
is not in development mode and has no field bound. -/
def zap.NewProduction (w : World) : Except GoError zap.Logger × World :=
  match w.buildErr with
  | some err => (.error err, w)
  | none =>
    (.ok
      { core :=
          { sink := w.nextSink
            level := .InfoLevel
            sampler := some { tick := 1000000000, first := 100, thereafter := 100 }
            context := [] }
        development := false
        addCaller := true
        name := ""
        callerSkip := 0 },
     { (w.setSink w.nextSink zapcore.SinkState.fresh) with nextSink := w.nextSink + 1 })

/-! ## package lambdalog -/

/-- The key of the service name. -/
def ServiceNameKey : String := "service.name"

/-- The key of the request id. -/
def AWSRequestID : String := "aws.request_id"

/-- The key of the function name. -/
def AWSFunctionName : String := "aws.function_name"

/-- The key of the function version. -/
def AWSFunctionVersion : String := "aws.function_version"

/-- The key of the log group name. -/
def AWSLogGroupName : String := "aws.log_group_name"

/-- The key of the log stream name. -/
def AWSLogStreamName : String := "aws.log_stream_name"

/-- The struct `Logger`: the loosely-typed and the typed logger. -/
structure Logger where
  SugaredLogger : zap.SugaredLogger
  ZapLogger : zap.Logger
deriving DecidableEq

/-- The function `New`: the Go pair of a `*Logger` (`none` is the nil pointer) and an
`error` (`none` is nil), and the world after the call. -/
def New (name : String) (ctx : lambdacontext.LambdaContext) (w : World) :
    (Option Logger × Option GoError) × World :=
  match zap.NewProduction w with
  | (.error err, w1) => ((none, some err), w1)
  | (.ok logger, w1) =>
    let sugared := ((logger.WithOptions [zap.LoggerOption.AddCallerSkip 1]).Sugar).With
      [ .str ServiceNameKey, .str name,
        .str AWSRequestID, .str ctx.AwsRequestID,
        .str AWSFunctionName, .str w1.globals.FunctionName,
        .str AWSFunctionVersion, .str w1.globals.FunctionVersion,
        .str AWSLogGroupName, .str w1.globals.LogGroupName,
        .str AWSLogStreamName, .str w1.globals.LogStreamName ] w1
    let w2 := sugared.2
    let typed := logger.With
      [ zap.String' ServiceNameKey name,
        zap.String' AWSRequestID ctx.AwsRequestID,
        zap.String' AWSFunctionName w2.globals.FunctionName,
        zap.String' AWSFunctionVersion w2.globals.FunctionVersion,
        zap.String' AWSLogGroupName w2.globals.LogGroupName,
        zap.String' AWSLogStreamName w2.globals.LogStreamName ]
    ((some { SugaredLogger := sugared.1, ZapLogger := typed }, none), w2)

/-- The method `Sync`. -/
def Logger.Sync (l : Logger) (w : World) : Option GoError × World :=
  l.SugaredLogger.Sync w

/-- The method `Debug`. -/
def Logger.Debug (l : Logger) (i : List Value) (w : World) : World :=
  l.SugaredLogger.Debug i w

/-- The method `Info`. -/
def Logger.Info (l : Logger) (i : List Value) (w : World) : World :=
  l.SugaredLogger.Info i w

/-- The method `Warn`. -/
def Logger.Warn (l : Logger) (i : List Value) (w : World) : World :=
  l.SugaredLogger.Warn i w

/-- The method `Error`. -/
def Logger.Error (l : Logger) (i : List Value) (w : World) : World :=
  l.SugaredLogger.Error i w

/-- The method `Log`: logs at info level and returns nil. -/
def Logger.Log (l : Logger) (i : List Value) (w : World) : Option GoError × World :=
  let w1 := l.SugaredLogger.Info i w
  (none, w1)

/-! ## Observations used in the statements -/

/-- The six fields of the data model, from the service name, the execution context and
the process-wide values: the keys as the table of the specification spells them. -/
def enrichment (name : String) (ctx : lambdacontext.LambdaContext)
    (g : lambdacontext.Globals) : List zapcore.Field :=
  [ { Key := "service.name", Value := .string name },
    { Key := "aws.request_id", Value := .string ctx.AwsRequestID },
    { Key := "aws.function_name", Value := .string g.FunctionName },
    { Key := "aws.function_version", Value := .string g.FunctionVersion },
    { Key := "aws.log_group_name", Value := .string g.LogGroupName },
    { Key := "aws.log_stream_name", Value := .string g.LogStreamName } ]

/-- The logger `zap.NewProduction` returns when it opens the sink `sink`. -/
def productionLogger (sink : Nat) : zap.Logger :=
  { core :=
      { sink := sink
        level := .InfoLevel
        sampler := some { tick := 1000000000, first := 100, thereafter := 100 }
        context := [] }
    development := false
    addCaller := true
    name := ""
    callerSkip := 0 }

/-- The world after `zap.NewProduction` opened a sink. -/
def World.opened (w : World) : World :=
  { (w.setSink w.nextSink zapcore.SinkState.fresh) with nextSink := w.nextSink + 1 }

/-- The value of the logger `New` returns, written out: both views are the production
logger over `sink` with the six fields bound, the loosely-typed one three frames deep
(one for `AddCallerSkip(1)`, two for `Sugar`). -/
def builtLogger (name : String) (ctx : lambdacontext.LambdaContext)
    (g : lambdacontext.Globals) (sink : Nat) : Logger :=
  { SugaredLogger :=
      { base := { productionLogger sink with
          callerSkip := 3
          core := { (productionLogger sink).core with context := enrichment name ctx g } } }
    ZapLogger := { productionLogger sink with
      core := { (productionLogger sink).core with context := enrichment name ctx g } } }

/-- The entry a loosely-typed logging call at `lvl` offers to the core. -/
def zap.SugaredLogger.offered (s : zap.SugaredLogger) (lvl : zapcore.Level)
    (args : List Value) (w : World) : zapcore.Entry :=
  { Level := lvl, Time := w.now, LoggerName := s.base.name, Message := fmt.Sprint args,
    Caller := none }

/-- Whether the core accepts the entry of a loosely-typed logging call at `lvl`: the
level is enabled and the sampler lets the entry through. -/
def zap.SugaredLogger.accepts (s : zap.SugaredLogger) (lvl : zapcore.Level)
    (args : List Value) (w : World) : Bool :=
  (s.base.core.Check (s.offered lvl args w) w).1

/-- The record a loosely-typed logging call at `lvl` hands to the output when the core
accepts its entry. -/
def zap.SugaredLogger.record (s : zap.SugaredLogger) (lvl : zapcore.Level)
    (args : List Value) (w : World) : zapcore.Record :=
  { entry :=
      { Level := lvl, Time := w.now, LoggerName := s.base.name, Message := fmt.Sprint args,
        Caller := if s.base.addCaller then some s.base.callerSkip else none }
    fields := s.base.core.context }

/-- The error of a result, nil when there is none. -/
def errorOf {α : Type} : Except GoError α → Option GoError
  | .error err => some err
  | .ok _ => none

/-- A call of a method of `Logger`. -/
inductive Call
  | Debug (i : List Value)
  | Info (i : List Value)
  | Warn (i : List Value)
  | Error (i : List Value)
  | Log (i : List Value)
  | Sync

/-- What can happen to a logger and the world around it: a method is called, the
runtime changes the process-wide values, the clock moves. -/
inductive Event
  | call (c : Call)
  | setGlobals (g : lambdacontext.Globals)
  | setClock (now : Int)

/-- The world after a call of a method (a returned error is dropped). -/
def Logger.perform (l : Logger) : Call → World → World
  | .Debug i, w => l.Debug i w
  | .Info i, w => l.Info i w
  | .Warn i, w => l.Warn i w
  | .Error i, w => l.Error i w
  | .Log i, w => (l.Log i w).2
  | .Sync, w => (l.Sync w).2

/-- One event on a logger and a world.  No method assigns to its receiver, so the
logger comes back as it was. -/
def step : Event → Logger × World → Logger × World
  | .call c, (l, w) => (l, l.perform c w)
  | .setGlobals g, (l, w) => (l, { w with globals := g })
  | .setClock now, (l, w) => (l, { w with now := now })

/-- A sequence of events, the first one first. -/
def run (evs : List Event) (st : Logger × World) : Logger × World :=
  evs.foldl (fun st e => step e st) st

/-- The results of `n` calls of `Sync` in a row, and the world after them. -/
def Logger.SyncTimes (l : Logger) : Nat → World → List (Option GoError) × World
  | 0, w => ([], w)
  | n + 1, w =>
    let r := l.Sync w
    let rs := l.SyncTimes n r.2
    (r.1 :: rs.1, rs.2)

/-! ## A concrete invocation -/

/-- The execution context of the scenario. -/
def exampleCtx : lambdacontext.LambdaContext :=
  { AwsRequestID := "abc-123"
    InvokedFunctionArn := "arn:aws:lambda:eu-west-1:000000000000:function:checkout"
    Identity := { CognitoIdentityID := "", CognitoIdentityPoolID := "" }
    ClientContext := [] }

/-- The process-wide values of the scenario. -/
def exampleGlobals : lambdacontext.Globals :=
  { LogGroupName := "/aws/lambda/checkout"
    LogStreamName := "2024/01/01/[$LATEST]xyz"
    FunctionName := "checkout"
    MemoryLimitInMB := 128
    FunctionVersion := "3" }

/-- A world for the scenario: no sink opened yet, the build of the logger succeeds, the
first two calls on the output succeed and the third fails. -/
def exampleWorld : World :=
  { globals := exampleGlobals
    now := 1704067200000000000
    buildErr := none
    ioResults := [none, none, some { msg := "sync /dev/stderr: invalid argument" }]
    nextSink := 0
    sinks := fun _ => zapcore.SinkState.fresh }

/-- The six fields of the scenario. -/
def exampleFields : List zapcore.Field :=
  [ { Key := "service.name", Value := .string "checkout-service" },
    { Key := "aws.request_id", Value := .string "abc-123" },
    { Key := "aws.function_name", Value := .string "checkout" },
    { Key := "aws.function_version", Value := .string "3" },
    { Key := "aws.log_group_name", Value := .string "/aws/lambda/checkout" },
    { Key := "aws.log_stream_name", Value := .string "2024/01/01/[$LATEST]xyz" } ]

/-- The logger of the scenario. -/
def exampleLogger : Logger :=
  { SugaredLogger :=
      { base :=
          { core :=
              { sink := 0
                level := .InfoLevel
                sampler := some { tick := 1000000000, first := 100, thereafter := 100 }
                context := exampleFields }
            development := false
            addCaller := true
            name := ""
            callerSkip := 3 } }
    ZapLogger :=
      { core :=
          { sink := 0
            level := .InfoLevel
            sampler := some { tick := 1000000000, first := 100, thereafter := 100 }
            context := exampleFields }
        development := false
        addCaller := true
        name := ""
        callerSkip := 0 } }

/-- A sequence of events for the scenario: calls of every method, with a change of the
process-wide values and of the clock in between. -/
def exampleEvents : List Event :=
  [ .call (.Info [.str "order placed", .int 42]),
    .setGlobals { exampleGlobals with FunctionVersion := "4", LogStreamName := "other" },
    .setClock 1704067201000000000,
    .call (.Error [.str "payment failed"]),
    .call .Sync,
    .call (.Log [.int 1, .int 2]),
    .call (.Debug []),
    .call (.Warn [.other "x"]) ]

/-- A world in which the sampler of sink 0 has already counted a hundred entries in
every bucket of the running tick. -/
def busyWorld : World :=
  { exampleWorld with
    nextSink := 1
    sinks := fun _ =>
      { zapcore.SinkState.fresh with
        counts := fun _ _ => { resetAt := 1704067200500000000, counter := 100 } } }

/-- A hundred calls of `Info` with the arguments of the scenario. -/
def hundredInfos : List Event :=
  List.replicate 100 (.call (.Info [.str "order placed", .int 42]))

/-- The world of the scenario after `New` and a hundred calls of `Info` with the same
arguments, all within the same second. -/
def worldAfterHundred : World :=
  (run hundredInfos (exampleLogger, (New "checkout-service" exampleCtx exampleWorld).2)).2

/-! ## Lemmas -/

/-- Without a build error `zap.NewProduction` returns the production logger over a new sink. -/
theorem NewProduction_ok (w : World) (h : w.buildErr = none) :
    zap.NewProduction w = (.ok (productionLogger w.nextSink), w.opened) := by
  simp [zap.NewProduction, h, productionLogger, World.opened]

/-- With a build error `zap.NewProduction` returns that error and leaves the world alone. -/
theorem NewProduction_error (w : World) (err : GoError) (h : w.buildErr = some err) :
    zap.NewProduction w = (.error err, w) := by
  simp [zap.NewProduction, h]

/-- Without a build error `New` returns `builtLogger` and no error, in the world with the new sink. -/
theorem New_ok (name : String) (ctx : lambdacontext.LambdaContext) (w : World)
    (h : w.buildErr = none) :
    New name ctx w = ((some (builtLogger name ctx w.globals w.nextSink), none), w.opened) := by
  simp [New, NewProduction_ok w h, zap.SugaredLogger.With, zap.SugaredLogger.sweetenFields,
    zap.sweetenLoop, zap.Logger.With, zap.Logger.WithOptions, zap.Logger.Sugar,
    zap.LoggerOption.apply, zapcore.Core.With, zap.Any, zap.String', enrichment, builtLogger,
    productionLogger, World.opened, World.setSink, int64, ServiceNameKey, AWSRequestID,
    AWSFunctionName, AWSFunctionVersion, AWSLogGroupName, AWSLogStreamName]

/-- With a build error `New` returns no logger and that error. -/
theorem New_error (name : String) (ctx : lambdacontext.LambdaContext) (w : World)
    (err : GoError) (h : w.buildErr = some err) :
    New name ctx w = ((none, some err), w) := by
  simp [New, NewProduction_error w err h]

/-- A successful `zap.NewProduction` means there was no build error. -/
theorem buildErr_of_ok (w : World) (base : zap.Logger)
    (h : (zap.NewProduction w).1 = .ok base) : w.buildErr = none := by
  unfold zap.NewProduction at h
  cases hb : w.buildErr with
  | none => rfl
  | some err => simp [hb] at h

/-- A `New` without error means there was no build error. -/
theorem buildErr_of_New (name : String) (ctx : lambdacontext.LambdaContext) (w : World)
    (h : (New name ctx w).1.2 = none) : w.buildErr = none := by
  cases hb : w.buildErr with
  | none => rfl
  | some err => simp [New_error name ctx w err hb] at h

/-- A successful `zap.NewProduction` returns the production logger over the next sink. -/
theorem base_of_ok (w : World) (base : zap.Logger)
    (h : (zap.NewProduction w).1 = .ok base) : base = productionLogger w.nextSink := by
  have hb := buildErr_of_ok w base h
  rw [NewProduction_ok w hb] at h
  exact (Except.ok.inj h).symm

/-- The message of a call without template is `fmt.Sprint` of the arguments, also when there are none. -/
theorem Sprint_of_isEmpty (args : List Value) :
    (if args.isEmpty then "" else fmt.Sprint args) = fmt.Sprint args := by
  cases args <;> simp [fmt.Sprint, fmt.doPrint]

/-- No loose arguments give no field and no diagnostic. -/
theorem sweetenFields_nil (s : zap.SugaredLogger) (w : World) :
    s.sweetenFields [] w = ([], w) := by
  simp [zap.SugaredLogger.sweetenFields, zap.sweetenLoop]

/-- The only thing `Check` changes is the counters of the sink of the core. -/
theorem Check_world (c : zapcore.Core) (ent : zapcore.Entry) (w : World) :
    (c.Check ent w).2 = w ∨
      ∃ cnts, (c.Check ent w).2 = w.setSink c.sink { w.sinks c.sink with counts := cnts } := by
  unfold zapcore.Core.Check
  split
  · exact Or.inl rfl
  · split
    · exact Or.inl rfl
    · dsimp only
      split
      · exact Or.inr ⟨_, rfl⟩
      · exact Or.inr ⟨_, rfl⟩

/-- The function `Check` writes no record. -/
theorem Check_written (c : zapcore.Core) (ent : zapcore.Entry) (w : World) (k : Nat) :
    ((c.Check ent w).2.sinks k).written = (w.sinks k).written := by
  rcases Check_world c ent w with h | ⟨cnts, h⟩
  · rw [h]
  · rw [h]
    simp only [World.setSink]
    split
    · subst_vars; rfl
    · rfl

/-- The function `Check` refuses an entry whose level is disabled. -/
theorem Check_disabled (c : zapcore.Core) (ent : zapcore.Entry) (w : World)
    (h : c.Enabled ent.Level = false) : (c.Check ent w).1 = false := by
  simp [zapcore.Core.Check, h]

/-- Taking the next result of the output touches no sink. -/
theorem nextResult_sinks (w : World) : w.nextResult.2.sinks = w.sinks := by
  unfold World.nextResult
  split <;> rfl

/-- The records of a sink after `setSink`. -/
theorem setSink_written (w : World) (id : Nat) (st : zapcore.SinkState) (k : Nat) :
    ((w.setSink id st).sinks k).written =
      if k = id then st.written else (w.sinks k).written := by
  simp only [World.setSink]
  split <;> rfl

/-- The function `Sync` writes no record. -/
theorem Sync_written (c : zapcore.Core) (w : World) (k : Nat) :
    ((c.Sync w).2.sinks k).written = (w.sinks k).written := by
  simp only [zapcore.Core.Sync, setSink_written, nextResult_sinks]
  split
  · subst_vars; rfl
  · rfl

/-- The function `Write` appends one record to the sink of the core: the entry with the bound fields and the fields of the call. -/
theorem Write_written (c : zapcore.Core) (ent : zapcore.Entry) (fields : List zapcore.Field)
    (w : World) (k : Nat) :
    ((c.Write ent fields w).2.sinks k).written =
      (w.sinks k).written ++
        (if k = c.sink then [{ entry := ent, fields := c.context ++ fields }] else []) := by
  unfold zapcore.Core.Write
  dsimp only
  split
  · simp only [setSink_written, nextResult_sinks]
    split
    · subst_vars; rfl
    · simp
  · split
    · simp only [Sync_written, setSink_written, nextResult_sinks]
      split
      · subst_vars; rfl
      · simp
    · simp only [setSink_written, nextResult_sinks]
      split
      · subst_vars; rfl
      · simp

/-- What a loosely-typed logging call without context adds to the records: the one record of the call to the sink of the logger when the core accepts the entry, and nothing otherwise. -/
theorem log_written (s : zap.SugaredLogger) (lvl : zapcore.Level) (args : List Value)
    (w : World) (k : Nat) :
    ((s.log lvl args [] w).sinks k).written =
      (w.sinks k).written ++
        (if k = s.base.core.sink ∧ s.accepts lvl args w = true then [s.record lvl args w]
         else []) := by
  unfold zap.SugaredLogger.log
  simp only [Sprint_of_isEmpty, sweetenFields_nil]
  split
  · next h =>
    have hd : s.base.core.Enabled lvl = false := by simpa using h.2
    have : s.accepts lvl args w = false := Check_disabled _ _ _ hd
    simp [this]
  · by_cases hacc : s.accepts lvl args w = true
    · have h1 : (s.base.core.Check (s.offered lvl args w) w).1 = true := hacc
      simp only [zap.SugaredLogger.offered] at h1
      simp only [h1, hacc, and_true]
      have hrec : zapcore.Record.mk
            (if s.base.addCaller = true then
              zapcore.Entry.mk lvl w.now s.base.name (fmt.Sprint args) (some s.base.callerSkip)
            else zapcore.Entry.mk lvl w.now s.base.name (fmt.Sprint args) none)
            (s.base.core.context ++ []) = s.record lvl args w := by
        unfold zap.SugaredLogger.record
        cases s.base.addCaller <;> simp
      simp only [Bool.not_true, Bool.false_eq_true, if_false]
      split
      · rw [Write_written, Check_written, hrec]
      · rw [setSink_written]
        split
        · next hk => rw [Write_written, Check_written, hrec, hk]; simp
        · next hk => rw [Write_written, Check_written, hrec]; simp [hk]
    · have h1 : (s.base.core.Check (s.offered lvl args w) w).1 = false := by
        simpa [zap.SugaredLogger.accepts] using hacc
      simp only [zap.SugaredLogger.offered] at h1
      simp only [h1, hacc, and_false]
      simp [Check_written]

/-- The sinks after `zap.NewProduction` opened one. -/
theorem opened_sinks (w : World) (k : Nat) :
    w.opened.sinks k = if k = w.nextSink then zapcore.SinkState.fresh else w.sinks k := rfl

/-- A production core whose sampler has not counted anything accepts an entry at `InfoLevel`. -/
theorem accepts_fresh (s : zap.SugaredLogger) (args : List Value) (w : World) (sink : Nat)
    (hc : s.base.core = { (productionLogger sink).core with context := s.base.core.context })
    (hf : (w.sinks sink).counts = zapcore.SinkState.fresh.counts) :
    s.accepts .InfoLevel args w = true := by
  unfold zap.SugaredLogger.accepts zapcore.Core.Check
  rw [hc]
  simp [productionLogger, zapcore.Core.Enabled, zapcore.Level.Enabled, zap.SugaredLogger.offered,
    hf, zapcore.SinkState.fresh, zapcore.Counter.IncCheckReset, uint64]
  split <;> simp

/-- Every record a method call adds carries the fields bound to the loosely-typed view and its caller depth. -/
theorem perform_written (l : Logger) (c : Call) (w : World) (k : Nat) :
    ∃ delta, ((l.perform c w).sinks k).written = (w.sinks k).written ++ delta ∧
      ∀ r ∈ delta, r.fields = l.SugaredLogger.base.core.context ∧
        r.entry.Caller = (if l.SugaredLogger.base.addCaller then
          some l.SugaredLogger.base.callerSkip else none) := by
  have key : ∀ lvl i, ∃ delta,
      ((l.SugaredLogger.log lvl i [] w).sinks k).written = (w.sinks k).written ++ delta ∧
      ∀ r ∈ delta, r.fields = l.SugaredLogger.base.core.context ∧
        r.entry.Caller = (if l.SugaredLogger.base.addCaller then
          some l.SugaredLogger.base.callerSkip else none) := by
    intro lvl i
    refine ⟨_, log_written _ lvl i w k, ?_⟩
    intro r hr
    split at hr
    · simp only [List.mem_singleton] at hr
      subst hr
      exact ⟨rfl, rfl⟩
    · simp at hr
  cases c with
  | Debug i => exact key _ i
  | Info i => exact key _ i
  | Warn i => exact key _ i
  | Error i => exact key _ i
  | Log i => exact key _ i
  | Sync => exact ⟨[], by simp [Logger.perform, Logger.Sync, zap.SugaredLogger.Sync,
      zap.Logger.Sync, Sync_written], by simp⟩

/-- A sequence of events returns the logger as it was, and every record it adds carries the fields bound to the loosely-typed view and its caller depth. -/
theorem run_written (evs : List Event) (l : Logger) (w : World) (k : Nat) :
    (run evs (l, w)).1 = l ∧
    ∃ delta, (((run evs (l, w)).2).sinks k).written = (w.sinks k).written ++ delta ∧
      ∀ r ∈ delta, r.fields = l.SugaredLogger.base.core.context ∧
        r.entry.Caller = (if l.SugaredLogger.base.addCaller then
          some l.SugaredLogger.base.callerSkip else none) := by
  induction evs generalizing w with
  | nil => exact ⟨rfl, [], by simp [run], by simp⟩
  | cons e evs ih =>
    have hrun : run (e :: evs) (l, w) = run evs (step e (l, w)) := rfl
    rw [hrun]
    cases e with
    | call c =>
      obtain ⟨d1, h1, hd1⟩ := perform_written l c w k
      obtain ⟨hl, d2, h2, hd2⟩ := ih (l.perform c w)
      refine ⟨hl, d1 ++ d2, ?_, ?_⟩
      · show ((run evs (l, l.perform c w)).2.sinks k).written = _
        rw [h2, h1, List.append_assoc]
      · intro r hr
        rcases List.mem_append.mp hr with h | h
        · exact hd1 r h
        · exact hd2 r h
    | setGlobals g => exact ih { w with globals := g }
    | setClock now => exact ih { w with now := now }

/-- The function `Sync` returns the next result of the output and uses it up. -/
theorem Sync_result (c : zapcore.Core) (w : World) :
    (c.Sync w).1 = w.ioResults.getD 0 none ∧ (c.Sync w).2.ioResults = w.ioResults.tail := by
  obtain ⟨g, now, b, io, n, sinks⟩ := w
  cases io <;> simp [zapcore.Core.Sync, World.nextResult, World.setSink]

/-- The function `Sync` flushes the output of the sink once. -/
theorem Sync_syncs (c : zapcore.Core) (w : World) :
    ((c.Sync w).2.sinks c.sink).syncs = (w.sinks c.sink).syncs + 1 := by
  simp [zapcore.Core.Sync, World.setSink, nextResult_sinks]

/-- The results of `n` flushes in a row are the next `n` results of the output. -/
theorem SyncTimes_results (l : Logger) (n : Nat) (w : World) :
    (l.SyncTimes n w).1 = (List.range n).map (fun k => w.ioResults.getD k none) := by
  induction n generalizing w with
  | zero => rfl
  | succ n ih =>
    have h := Sync_result l.SugaredLogger.base.core w
    simp only [Logger.SyncTimes, Logger.Sync, zap.SugaredLogger.Sync, zap.Logger.Sync, ih, h.1, h.2,
      List.range_succ_eq_map, List.map_cons, List.map_map]
    congr 1
    apply List.map_congr_left
    intro k _
    cases w.ioResults <;> simp

/-- The function `Check` uses up no result of the output. -/
theorem Check_ioResults (c : zapcore.Core) (ent : zapcore.Entry) (w : World) :
    (c.Check ent w).2.ioResults = w.ioResults := by
  rcases Check_world c ent w with h | ⟨cnts, h⟩
  · rw [h]
  · rw [h]; rfl

/-- The function `Check` reports nothing on the error output. -/
theorem Check_errorOutput (c : zapcore.Core) (ent : zapcore.Entry) (w : World) (k : Nat) :
    ((c.Check ent w).2.sinks k).errorOutput = (w.sinks k).errorOutput := by
  rcases Check_world c ent w with h | ⟨cnts, h⟩
  · rw [h]
  · rw [h]
    simp only [World.setSink]
    split
    · subst_vars; rfl
    · rfl

/-- The next result of the output is the head of the coming results, nil when there is none. -/
theorem nextResult_result (w : World) : w.nextResult.1 = w.ioResults.getD 0 none := by
  unfold World.nextResult
  cases w.ioResults <;> rfl

/-- The function `Write` returns the result of the output for that call. -/
theorem Write_result (c : zapcore.Core) (ent : zapcore.Entry) (fields : List zapcore.Field)
    (w : World) : (c.Write ent fields w).1 = w.ioResults.getD 0 none := by
  unfold zapcore.Core.Write
  dsimp only
  rw [← nextResult_result]
  split
  · next h => rw [h]
  · next h =>
    rw [h]
    split <;> rfl

/-- The error output of a sink after `setSink`. -/
theorem setSink_errorOutput (w : World) (id : Nat) (st : zapcore.SinkState) (k : Nat) :
    ((w.setSink id st).sinks k).errorOutput =
      if k = id then st.errorOutput else (w.sinks k).errorOutput := by
  simp only [World.setSink]
  split <;> rfl

/-- The function `Sync` reports nothing on the error output. -/
theorem Sync_errorOutput (c : zapcore.Core) (w : World) (k : Nat) :
    ((c.Sync w).2.sinks k).errorOutput = (w.sinks k).errorOutput := by
  simp only [zapcore.Core.Sync, setSink_errorOutput, nextResult_sinks]
  split
  · subst_vars; rfl
  · rfl

/-- The function `Write` reports nothing on the error output itself: it returns the error. -/
theorem Write_errorOutput (c : zapcore.Core) (ent : zapcore.Entry)
    (fields : List zapcore.Field) (w : World) (k : Nat) :
    ((c.Write ent fields w).2.sinks k).errorOutput = (w.sinks k).errorOutput := by
  unfold zapcore.Core.Write
  dsimp only
  split
  · simp only [setSink_errorOutput, nextResult_sinks]
    split
    · subst_vars; rfl
    · rfl
  · split
    · simp only [Sync_errorOutput, setSink_errorOutput, nextResult_sinks]
      split
      · subst_vars; rfl
      · rfl
    · simp only [setSink_errorOutput, nextResult_sinks]
      split
      · subst_vars; rfl
      · rfl

/-- What a loosely-typed logging call without context reports on the error output of its sink: the error of the write when the core accepts the entry and the output fails, and nothing otherwise. -/
theorem log_errorOutput (s : zap.SugaredLogger) (lvl : zapcore.Level) (args : List Value)
    (w : World) :
    ((s.log lvl args [] w).sinks s.base.core.sink).errorOutput =
      (w.sinks s.base.core.sink).errorOutput ++
        (if s.accepts lvl args w = true then (w.ioResults.getD 0 none).toList else []) := by
  unfold zap.SugaredLogger.log
  simp only [Sprint_of_isEmpty, sweetenFields_nil]
  split
  · next h =>
    have hd : s.base.core.Enabled lvl = false := by simpa using h.2
    have : s.accepts lvl args w = false := Check_disabled _ _ _ hd
    simp [this]
  · by_cases hacc : s.accepts lvl args w = true
    · have h1 : (s.base.core.Check (s.offered lvl args w) w).1 = true := hacc
      simp only [zap.SugaredLogger.offered] at h1
      simp only [h1, hacc, if_true, Bool.not_true, Bool.false_eq_true, if_false]
      split
      · next hr =>
        rw [Write_result, Check_ioResults] at hr
        rw [Write_errorOutput, Check_errorOutput, hr]
        simp
      · next err hr =>
        rw [Write_result, Check_ioResults] at hr
        rw [setSink_errorOutput, if_pos rfl, Write_errorOutput, Check_errorOutput, hr]
        simp
    · have h1 : (s.base.core.Check (s.offered lvl args w) w).1 = false := by
        simpa [zap.SugaredLogger.accepts] using hacc
      simp only [zap.SugaredLogger.offered] at h1
      simp only [h1, hacc]
      simp [Check_errorOutput]

/-- After a hundred entries in a tick the sampler of the production logger drops the
next one: `Info` then adds no record. -/
theorem Info_dropped_when_sampler_is_busy :
    exampleLogger.SugaredLogger.accepts .InfoLevel [.str "order placed", .int 42] busyWorld
      = false ∧
    ((exampleLogger.Info [.str "order placed", .int 42] busyWorld).sinks 0).written = [] := by
  constructor
  · rfl
  · rfl

/-! ## The claims -/

/-- C1: when `zap.NewProduction` succeeds, `New name ctx` returns a logger and no error,
and both views of the logger have exactly the six fields bound, in the order and with
the keys of the table: service name, request id of `ctx`, and the process-wide function
name, function version, log group and log stream. -/
theorem New_binds_six_fields (name : String) (ctx : lambdacontext.LambdaContext) (w : World)
    (base : zap.Logger) (h : (zap.NewProduction w).1 = .ok base) :
    ∃ l, (New name ctx w).1 = (some l, none) ∧
      l.SugaredLogger.base.core.context =
        [ { Key := "service.name", Value := .string name },
          { Key := "aws.request_id", Value := .string ctx.AwsRequestID },
          { Key := "aws.function_name", Value := .string w.globals.FunctionName },
          { Key := "aws.function_version", Value := .string w.globals.FunctionVersion },
          { Key := "aws.log_group_name", Value := .string w.globals.LogGroupName },
          { Key := "aws.log_stream_name", Value := .string w.globals.LogStreamName } ] ∧
      l.ZapLogger.core.context = l.SugaredLogger.base.core.context := by
  rw [New_ok name ctx w (buildErr_of_ok w base h)]
  exact ⟨_, rfl, rfl, rfl⟩

/-- C1 at the empty service name, in the world of the scenario. -/
theorem New_binds_six_fields_witness :
    (zap.NewProduction exampleWorld).1 = .ok (productionLogger 0) ∧
    ∃ l, (New "" exampleCtx exampleWorld).1 = (some l, none) ∧
      l.SugaredLogger.base.core.context =
        [ { Key := "service.name", Value := .string "" },
          { Key := "aws.request_id", Value := .string "abc-123" },
          { Key := "aws.function_name", Value := .string "checkout" },
          { Key := "aws.function_version", Value := .string "3" },
          { Key := "aws.log_group_name", Value := .string "/aws/lambda/checkout" },
          { Key := "aws.log_stream_name", Value := .string "2024/01/01/[$LATEST]xyz" } ] ∧
      l.ZapLogger.core.context = l.SugaredLogger.base.core.context :=
  ⟨rfl, New_binds_six_fields "" exampleCtx exampleWorld (productionLogger 0) rfl⟩

/-- C2: when `New name ctx` returns a logger, the fields bound to the loosely-typed view
and the fields bound to the typed view are the same sequence: six pairs, under the six
keys, each with a string value. -/
theorem New_views_carry_same_fields (name : String) (ctx : lambdacontext.LambdaContext)
    (w : World) (l : Logger) (h : (New name ctx w).1.1 = some l) :
    l.SugaredLogger.base.core.context = l.ZapLogger.core.context ∧
    l.ZapLogger.core.context.map (fun f => f.Key) =
      ["service.name", "aws.request_id", "aws.function_name", "aws.function_version",
        "aws.log_group_name", "aws.log_stream_name"] ∧
    l.ZapLogger.core.context.map (fun f => f.Value) =
      [.string name, .string ctx.AwsRequestID, .string w.globals.FunctionName,
        .string w.globals.FunctionVersion, .string w.globals.LogGroupName,
        .string w.globals.LogStreamName] := by
  cases hb : w.buildErr with
  | some err => simp [New_error name ctx w err hb] at h
  | none =>
    rw [New_ok name ctx w hb] at h
    have hl := Option.some.inj h
    subst hl
    exact ⟨rfl, rfl, rfl⟩

/-- C2 at the logger of the scenario. -/
theorem New_views_carry_same_fields_witness :
    (New "checkout-service" exampleCtx exampleWorld).1.1 = some exampleLogger ∧
    (exampleLogger.SugaredLogger.base.core.context = exampleLogger.ZapLogger.core.context ∧
    exampleLogger.ZapLogger.core.context.map (fun f => f.Key) =
      ["service.name", "aws.request_id", "aws.function_name", "aws.function_version",
        "aws.log_group_name", "aws.log_stream_name"] ∧
    exampleLogger.ZapLogger.core.context.map (fun f => f.Value) =
      [.string "checkout-service", .string exampleCtx.AwsRequestID,
        .string exampleWorld.globals.FunctionName,
        .string exampleWorld.globals.FunctionVersion, .string exampleWorld.globals.LogGroupName,
        .string exampleWorld.globals.LogStreamName]) :=
  ⟨rfl, New_views_carry_same_fields "checkout-service" exampleCtx exampleWorld exampleLogger rfl⟩

/-- C3: the error `New` returns is the error of `zap.NewProduction` (nil when there is
none); the logger is nil exactly when the error is not nil; and the error does not
depend on the name or the context. -/
theorem New_fails_iff_sink_fails (name : String) (ctx : lambdacontext.LambdaContext)
    (w : World) :
    (New name ctx w).1.2 = errorOf (zap.NewProduction w).1 ∧
    ((New name ctx w).1.1 = none ↔ (New name ctx w).1.2 ≠ none) ∧
    ((∃ l, (New name ctx w).1.1 = some l) ↔ (New name ctx w).1.2 = none) ∧
    ∀ (name' : String) (ctx' : lambdacontext.LambdaContext),
      (New name' ctx' w).1.2 = (New name ctx w).1.2 := by
  cases hb : w.buildErr with
  | some err =>
    refine ⟨?_, ?_, ?_, ?_⟩
    · rw [New_error name ctx w err hb, NewProduction_error w err hb]; rfl
    · rw [New_error name ctx w err hb]; simp
    · rw [New_error name ctx w err hb]; simp
    · intro name' ctx'
      rw [New_error name ctx w err hb, New_error name' ctx' w err hb]
  | none =>
    refine ⟨?_, ?_, ?_, ?_⟩
    · rw [New_ok name ctx w hb, NewProduction_ok w hb]; rfl
    · rw [New_ok name ctx w hb]; simp
    · rw [New_ok name ctx w hb]; simp
    · intro name' ctx'
      rw [New_ok name ctx w hb, New_ok name' ctx' w hb]

/-- C4: `Log` returns nil for every logger, every argument sequence and every world,
also one in which the write to the sink fails. -/
theorem Log_returns_nil (l : Logger) (i : List Value) (w : World) :
    (l.Log i w).1 = none := rfl

/-- C5: `Log` and `Info` change the world in the same way and leave the logger as it
was; `Log` returns nil in addition. -/
theorem Log_same_effect_as_Info (l : Logger) (i : List Value) (w : World) :
    (l.Log i w).2 = l.Info i w ∧
    step (.call (.Log i)) (l, w) = step (.call (.Info i)) (l, w) ∧
    (step (.call (.Log i)) (l, w)).1 = l ∧
    (l.Log i w).1 = none ∧
    ∀ k, ((l.Log i w).2.sinks k).written =
      (w.sinks k).written ++
        (if k = l.SugaredLogger.base.core.sink ∧
            l.SugaredLogger.accepts .InfoLevel i w = true then
          [{ entry :=
              { Level := .InfoLevel, Time := w.now, LoggerName := l.SugaredLogger.base.name,
                Message := fmt.Sprint i,
                Caller := if l.SugaredLogger.base.addCaller then
                  some l.SugaredLogger.base.callerSkip else none }
             fields := l.SugaredLogger.base.core.context }]
         else []) :=
  ⟨rfl, rfl, rfl, rfl, fun k => log_written l.SugaredLogger .InfoLevel i w k⟩

/-- C6: each of `Debug`, `Info`, `Warn` and `Error` is the call of the method of the same
name on the loosely-typed view with the arguments as they are; its result does not
depend on the typed view; and what it adds to the records of the sink is, when the core
accepts the entry, the one record at the level of that name whose message is
`fmt.Sprint` of the arguments and whose fields are the bound ones, and nothing
otherwise.  The methods return the world only: no value, no error. -/
theorem leveled_methods_forward (l : Logger) (i : List Value) (w : World) :
    (l.Debug i w = l.SugaredLogger.Debug i w ∧ l.Info i w = l.SugaredLogger.Info i w ∧
      l.Warn i w = l.SugaredLogger.Warn i w ∧ l.Error i w = l.SugaredLogger.Error i w) ∧
    (∀ z : zap.Logger,
      Logger.Debug { l with ZapLogger := z } i w = l.Debug i w ∧
      Logger.Info { l with ZapLogger := z } i w = l.Info i w ∧
      Logger.Warn { l with ZapLogger := z } i w = l.Warn i w ∧
      Logger.Error { l with ZapLogger := z } i w = l.Error i w) ∧
    (∀ k, ((l.Debug i w).sinks k).written = (w.sinks k).written ++
      (if k = l.SugaredLogger.base.core.sink ∧ l.SugaredLogger.accepts .DebugLevel i w = true
       then [l.SugaredLogger.record .DebugLevel i w] else [])) ∧
    (∀ k, ((l.Info i w).sinks k).written = (w.sinks k).written ++
      (if k = l.SugaredLogger.base.core.sink ∧ l.SugaredLogger.accepts .InfoLevel i w = true
       then [l.SugaredLogger.record .InfoLevel i w] else [])) ∧
    (∀ k, ((l.Warn i w).sinks k).written = (w.sinks k).written ++
      (if k = l.SugaredLogger.base.core.sink ∧ l.SugaredLogger.accepts .WarnLevel i w = true
       then [l.SugaredLogger.record .WarnLevel i w] else [])) ∧
    (∀ k, ((l.Error i w).sinks k).written = (w.sinks k).written ++
      (if k = l.SugaredLogger.base.core.sink ∧ l.SugaredLogger.accepts .ErrorLevel i w = true
       then [l.SugaredLogger.record .ErrorLevel i w] else [])) ∧
    (∀ lvl, (l.SugaredLogger.record lvl i w).entry.Level = lvl ∧
      (l.SugaredLogger.record lvl i w).entry.Message = fmt.Sprint i ∧
      (l.SugaredLogger.record lvl i w).fields = l.SugaredLogger.base.core.context) :=
  ⟨⟨rfl, rfl, rfl, rfl⟩, fun _ => ⟨rfl, rfl, rfl, rfl⟩,
    fun k => log_written l.SugaredLogger .DebugLevel i w k,
    fun k => log_written l.SugaredLogger .InfoLevel i w k,
    fun k => log_written l.SugaredLogger .WarnLevel i w k,
    fun k => log_written l.SugaredLogger .ErrorLevel i w k,
    fun _ => ⟨rfl, rfl, rfl⟩⟩

/-- C7: `Sync` is the flush of the loosely-typed view: it flushes the output of the sink
once and returns what the output reports for that call, nil or the error as it is; and
`n` calls in a row return, one after the other, what the output reports for each. -/
theorem Sync_returns_sink_result (l : Logger) (w : World) :
    l.Sync w = l.SugaredLogger.Sync w ∧
    (l.Sync w).1 = (l.SugaredLogger.base.core.Sync w).1 ∧
    (l.Sync w).1 = w.ioResults.getD 0 none ∧
    ((l.Sync w).2.sinks l.SugaredLogger.base.core.sink).syncs =
      (w.sinks l.SugaredLogger.base.core.sink).syncs + 1 ∧
    ∀ n, (l.SyncTimes n w).1 = (List.range n).map (fun k => w.ioResults.getD k none) :=
  ⟨rfl, rfl, (Sync_result l.SugaredLogger.base.core w).1, Sync_syncs l.SugaredLogger.base.core w,
    fun n => SyncTimes_results l n w⟩

/-- C8 (amended): when `New name ctx` succeeds, `Info` called on the logger it returns
before any other call hands exactly one record to the output of the logger's sink (which
held none before): at `InfoLevel`, with the message `fmt.Sprint` of the arguments and the
six fields with the values of the construction.  When the output fails to write it, the
error is reported on the error output of the sink and not returned.  The records of the
other sinks stay as they were.  In any later world a call of `Info` hands over that one
record when the core accepts the entry and none when the sampler drops it, never more. -/
theorem Info_after_New_emits_one_record (name : String) (ctx : lambdacontext.LambdaContext)
    (i : List Value) (w : World) (h : (New name ctx w).1.2 = none) :
    ∃ l, (New name ctx w).1.1 = some l ∧
      ((l.Info i (New name ctx w).2).sinks l.SugaredLogger.base.core.sink).written =
        [{ entry :=
            { Level := .InfoLevel, Time := w.now, LoggerName := "", Message := fmt.Sprint i,
              Caller := some 3 }
           fields := enrichment name ctx w.globals }] ∧
      ((l.Info i (New name ctx w).2).sinks l.SugaredLogger.base.core.sink).errorOutput =
        (w.ioResults.getD 0 none).toList ∧
      (∀ k, k ≠ l.SugaredLogger.base.core.sink →
        ((l.Info i (New name ctx w).2).sinks k).written = (w.sinks k).written) ∧
      ∀ (later : World) (k : Nat), ((l.Info i later).sinks k).written =
        (later.sinks k).written ++
          (if k = l.SugaredLogger.base.core.sink ∧
              l.SugaredLogger.accepts .InfoLevel i later = true then
            [{ entry :=
                { Level := .InfoLevel, Time := later.now, LoggerName := "",
                  Message := fmt.Sprint i, Caller := some 3 }
               fields := enrichment name ctx w.globals }]
           else []) := by
  have hb := buildErr_of_New name ctx w h
  rw [New_ok name ctx w hb]
  have hacc : (builtLogger name ctx w.globals w.nextSink).SugaredLogger.accepts
      .InfoLevel i w.opened = true :=
    accepts_fresh _ i w.opened w.nextSink rfl (by simp [opened_sinks])
  refine ⟨builtLogger name ctx w.globals w.nextSink, rfl, ?_, ?_, ?_, ?_⟩
  · show ((zap.SugaredLogger.log _ .InfoLevel i [] w.opened).sinks w.nextSink).written = _
    rw [log_written, hacc]
    simp [zapcore.SinkState.fresh, productionLogger, zap.SugaredLogger.record,
      World.opened, World.setSink, builtLogger]
  · have he := log_errorOutput (builtLogger name ctx w.globals w.nextSink).SugaredLogger
      .InfoLevel i w.opened
    rw [hacc] at he
    show ((zap.SugaredLogger.log _ .InfoLevel i [] w.opened).sinks w.nextSink).errorOutput = _
    have hs : (builtLogger name ctx w.globals w.nextSink).SugaredLogger.base.core.sink
        = w.nextSink := rfl
    rw [hs] at he
    rw [he]
    simp [opened_sinks, zapcore.SinkState.fresh, World.opened, World.setSink]
  · intro k hk
    show ((zap.SugaredLogger.log _ .InfoLevel i [] w.opened).sinks k).written = _
    have hk1 : k ≠ w.nextSink := hk
    rw [log_written]
    simp [opened_sinks, hk1, productionLogger, builtLogger]
  · intro later k
    exact log_written _ .InfoLevel i later k

/-- The scenario of C8: `New("checkout-service", ctx)` with request id `abc-123`,
function `checkout`, version `3`, then `Info("order placed", 42)`: one record at
`InfoLevel` with the six literal values and the message `order placed42`, and nothing
on the error output. -/
theorem Info_after_New_emits_one_record_witness :
    (New "checkout-service" exampleCtx exampleWorld).1.2 = none ∧
    (∃ l, (New "checkout-service" exampleCtx exampleWorld).1.1 = some l ∧
      ((l.Info [.str "order placed", .int 42]
          (New "checkout-service" exampleCtx exampleWorld).2).sinks
            l.SugaredLogger.base.core.sink).written =
        [{ entry :=
            { Level := .InfoLevel, Time := exampleWorld.now, LoggerName := "",
              Message := fmt.Sprint [.str "order placed", .int 42], Caller := some 3 }
           fields := enrichment "checkout-service" exampleCtx exampleWorld.globals }] ∧
      ((l.Info [.str "order placed", .int 42]
          (New "checkout-service" exampleCtx exampleWorld).2).sinks
            l.SugaredLogger.base.core.sink).errorOutput =
        (exampleWorld.ioResults.getD 0 none).toList ∧
      (∀ k, k ≠ l.SugaredLogger.base.core.sink →
        ((l.Info [.str "order placed", .int 42]
          (New "checkout-service" exampleCtx exampleWorld).2).sinks k).written =
            (exampleWorld.sinks k).written) ∧
      ∀ (later : World) (k : Nat),
        ((l.Info [.str "order placed", .int 42] later).sinks k).written =
        (later.sinks k).written ++
          (if k = l.SugaredLogger.base.core.sink ∧
              l.SugaredLogger.accepts .InfoLevel [.str "order placed", .int 42] later = true then
            [{ entry :=
                { Level := .InfoLevel, Time := later.now, LoggerName := "",
                  Message := fmt.Sprint [.str "order placed", .int 42], Caller := some 3 }
               fields := enrichment "checkout-service" exampleCtx exampleWorld.globals }]
           else [])) ∧
    fmt.Sprint [.str "order placed", .int 42] = "order placed42" ∧
    enrichment "checkout-service" exampleCtx exampleWorld.globals = exampleFields ∧
    (exampleWorld.ioResults.getD 0 none).toList = [] :=
  ⟨rfl, Info_after_New_emits_one_record "checkout-service" exampleCtx
      [.str "order placed", .int 42] exampleWorld rfl, by decide, rfl, rfl⟩

/-- C8 as it is worded fails: on the logger `New("checkout-service", ctx)` returns, after
a hundred calls of `Info("order placed", 42)` within one second (each of which handed
over its record), the next call of `Info("order placed", 42)` hands over no record: the
sampler of the production logger drops the entry. -/
theorem Info_hundred_and_first_call_emits_nothing :
    (New "checkout-service" exampleCtx exampleWorld).1 = (some exampleLogger, none) ∧
    (worldAfterHundred.sinks 0).written.length = 100 ∧
    exampleLogger.SugaredLogger.accepts .InfoLevel [.str "order placed", .int 42]
      worldAfterHundred = false ∧
    ((exampleLogger.Info [.str "order placed", .int 42] worldAfterHundred).sinks 0).written =
      (worldAfterHundred.sinks 0).written := by
  refine ⟨rfl, ?_, ?_, ?_⟩
  · decide!
  · decide!
  · decide!

/-- C9: when `New name ctx` succeeds, then after every finite sequence of calls of
`Debug`, `Info`, `Warn`, `Error`, `Log` and `Sync` on the logger, interleaved with any
changes of the process-wide values of `lambdacontext` and of the clock, the logger is
the one `New` returned, both views still have the six fields of the construction bound,
and every record the sequence added to a sink carries exactly those six fields. -/
theorem enrichment_fixed_at_construction (name : String) (ctx : lambdacontext.LambdaContext)
    (w : World) (evs : List Event) (h : (New name ctx w).1.2 = none) :
    ∃ l, (New name ctx w).1.1 = some l ∧
      (run evs (l, (New name ctx w).2)).1 = l ∧
      (run evs (l, (New name ctx w).2)).1.SugaredLogger.base.core.context =
        enrichment name ctx w.globals ∧
      (run evs (l, (New name ctx w).2)).1.ZapLogger.core.context =
        enrichment name ctx w.globals ∧
      ∀ k, ∃ delta,
        ((run evs (l, (New name ctx w).2)).2.sinks k).written =
          ((New name ctx w).2.sinks k).written ++ delta ∧
        ∀ r ∈ delta, r.fields = enrichment name ctx w.globals := by
  have hb := buildErr_of_New name ctx w h
  rw [New_ok name ctx w hb]
  refine ⟨builtLogger name ctx w.globals w.nextSink, rfl, ?_, ?_, ?_, ?_⟩
  · exact (run_written evs _ w.opened 0).1
  · rw [(run_written evs _ w.opened 0).1]; rfl
  · rw [(run_written evs _ w.opened 0).1]; rfl
  · intro k
    obtain ⟨_, delta, hd, hf⟩ := run_written evs (builtLogger name ctx w.globals w.nextSink)
      w.opened k
    exact ⟨delta, hd, fun r hr => (hf r hr).1⟩

/-- C9 at the scenario, for a sequence that calls every method and changes the
process-wide values in between. -/
theorem enrichment_fixed_at_construction_witness :
    (New "checkout-service" exampleCtx exampleWorld).1.2 = none ∧
    ∃ l, (New "checkout-service" exampleCtx exampleWorld).1.1 = some l ∧
      (run exampleEvents (l, (New "checkout-service" exampleCtx exampleWorld).2)).1 = l ∧
      (run exampleEvents
        (l, (New "checkout-service" exampleCtx exampleWorld).2)).1.SugaredLogger.base.core.context =
        enrichment "checkout-service" exampleCtx exampleWorld.globals ∧
      (run exampleEvents
        (l, (New "checkout-service" exampleCtx exampleWorld).2)).1.ZapLogger.core.context =
        enrichment "checkout-service" exampleCtx exampleWorld.globals ∧
      ∀ k, ∃ delta,
        ((run exampleEvents
          (l, (New "checkout-service" exampleCtx exampleWorld).2)).2.sinks k).written =
          ((New "checkout-service" exampleCtx exampleWorld).2.sinks k).written ++ delta ∧
        ∀ r ∈ delta, r.fields = enrichment "checkout-service" exampleCtx exampleWorld.globals :=
  ⟨rfl, enrichment_fixed_at_construction "checkout-service" exampleCtx exampleWorld
    exampleEvents rfl⟩

/-- C10: when `zap.NewProduction` succeeds with the logger `base`, both views of the
logger `New` returns write to the sink of `base`; the loosely-typed view skips exactly
one caller frame more than the loosely-typed view of `base` itself, its typed form one
more than `base`, and the typed view as many as `base`; and every record that a later
sequence of calls adds to a sink is annotated with that same depth, whatever was called
before. -/
theorem New_adds_one_caller_skip (name : String) (ctx : lambdacontext.LambdaContext)
    (w : World) (base : zap.Logger) (h : (zap.NewProduction w).1 = .ok base) :
    ∃ l, (New name ctx w).1.1 = some l ∧
      l.SugaredLogger.base.core.sink = base.core.sink ∧
      l.ZapLogger.core.sink = base.core.sink ∧
      l.SugaredLogger.base.callerSkip = base.Sugar.base.callerSkip + 1 ∧
      l.SugaredLogger.Desugar.callerSkip = base.callerSkip + 1 ∧
      l.ZapLogger.callerSkip = base.callerSkip ∧
      ∀ evs k, ∃ delta,
        ((run evs (l, (New name ctx w).2)).2.sinks k).written =
          ((New name ctx w).2.sinks k).written ++ delta ∧
        ∀ r ∈ delta, r.entry.Caller = some (base.Sugar.base.callerSkip + 1) := by
  have hb := buildErr_of_ok w base h
  have hbase := base_of_ok w base h
  subst hbase
  rw [New_ok name ctx w hb]
  refine ⟨builtLogger name ctx w.globals w.nextSink, rfl, rfl, rfl, ?_, ?_, rfl, ?_⟩
  · simp [builtLogger, productionLogger, zap.Logger.Sugar, int64]
  · simp [builtLogger, productionLogger, zap.SugaredLogger.Desugar, int64]
  · intro evs k
    obtain ⟨_, delta, hd, hf⟩ := run_written evs (builtLogger name ctx w.globals w.nextSink)
      w.opened k
    refine ⟨delta, hd, fun r hr => ?_⟩
    rw [(hf r hr).2]
    simp [builtLogger, productionLogger, zap.Logger.Sugar, int64]

/-- C10 at the scenario. -/
theorem New_adds_one_caller_skip_witness :
    (zap.NewProduction exampleWorld).1 = .ok (productionLogger 0) ∧
    ∃ l, (New "checkout-service" exampleCtx exampleWorld).1.1 = some l ∧
      l.SugaredLogger.base.core.sink = (productionLogger 0).core.sink ∧
      l.ZapLogger.core.sink = (productionLogger 0).core.sink ∧
      l.SugaredLogger.base.callerSkip = (productionLogger 0).Sugar.base.callerSkip + 1 ∧
      l.SugaredLogger.Desugar.callerSkip = (productionLogger 0).callerSkip + 1 ∧
      l.ZapLogger.callerSkip = (productionLogger 0).callerSkip ∧
      ∀ evs k, ∃ delta,
        ((run evs (l, (New "checkout-service" exampleCtx exampleWorld).2)).2.sinks k).written =
          ((New "checkout-service" exampleCtx exampleWorld).2.sinks k).written ++ delta ∧
        ∀ r ∈ delta, r.entry.Caller = some ((productionLogger 0).Sugar.base.callerSkip + 1) :=
  ⟨rfl, New_adds_one_caller_skip "checkout-service" exampleCtx exampleWorld
    (productionLogger 0) rfl⟩

end lambdalog
